import Mathlib

/-!
# Verification of the bolna duplex streaming speech-I/O adapters

Shallow embedding of `src/bolna/synthesizer/elevenlabs_synthesizer.py`
(`ElevenlabsSynthesizer`) and `src/bolna/transcriber/azure_transcriber.py`
(`AzureTranscriber`), with theorems settling the claims about the
correlation queue, the first-chunk / end-of-stream flagging, the sender's
flush behaviour, push/send ordering, the connection supervisor, cleanup
idempotence, and error handling.

Modelling conventions:
* Python dicts used as metadata records are mutated in place and shared by
  reference (the spec's data model: a result unit holds "a reference to the
  metadata record active at emission time").  We model the heap of metadata
  records as a list `store : List MetaRecord`; references are indices into
  it, and emitted packets carry the index.  A missing dict key is modelled
  by the field's default value (`false` / `none`).
* External collaborators (audio conversion, resampling, the websocket
  transport) are out of scope per the spec; they are modelled as opaque
  constructors / success oracles, never as the identity on the interesting
  state.
* Byte strings are `List Nat`; the end-of-unit sentinel `b'\x00'` is `[0]`.
* Exceptions are `Except Unit`; an exception caught outside a loop (ending
  a generator) is an explicit termination flag in the run function.
-/

namespace Bolna

/-- A metadata record (the Python dict attached to a logical unit).
Fields the synthesizer reads or writes; a key absent from the dict is the
default value. -/
structure MetaRecord where
  request_id : Nat
  end_of_llm_stream : Bool := false
  is_first_chunk : Bool := false
  end_of_synthesizer_stream : Bool := false
  format : Option String := none
  text : Option String := none
  deriving Repr, DecidableEq, Inhabited

/-- Audio payloads.  Conversion and resampling are external collaborators
(`convert_audio_to_wav`, `resample` in `bolna.helpers.utils`), treated as
opaque pure functions: constructors record which operation was applied. -/
inductive Audio where
  | raw (bytes : List Nat)
  | wavOf (bytes : List Nat)
  | resampled (a : Audio) (rate : Nat)
  deriving Repr, DecidableEq, Inhabited

/-- External collaborator `convert_audio_to_wav(chunk, source_format="mp3")`. -/
def convert_audio_to_wav (bytes : List Nat) : Audio := Audio.wavOf bytes

/-- External collaborator `resample(audio, sample_rate, format)`. -/
def resample (a : Audio) (rate : Nat) : Audio := Audio.resampled a rate

/-- Modelled from the spec: `create_ws_data_packet` (in
`bolna.helpers.utils`, not among the sources) builds the result unit handed
to the caller; per the spec a result unit is "an immutable payload (raw
bytes) plus a reference to the metadata record active at emission time".
The `meta` field is the index of the record in the store. -/
structure Packet where
  data : Audio
  meta : Nat
  deriving Repr, DecidableEq, Inhabited

/-- A live or closed websocket handle; `cid` is the handle's identity so
"handle unchanged" is expressible. -/
structure Conn where
  cid : Nat
  closed : Bool
  deriving Repr, DecidableEq, Inhabited

/-- The sender background task handle (`asyncio.Task`). -/
structure TaskHandle where
  done : Bool
  deriving Repr, DecidableEq, Inhabited

/-- Mutable state of an `ElevenlabsSynthesizer` instance, restricted to the
fields the claims concern.  `store` is the heap of metadata records;
`meta_info` and the entries of `text_queue` are references into it. -/
structure ElevenState where
  first_chunk_generated : Bool := false
  last_text_sent : Bool := false
  meta_info : Option Nat := none
  text_queue : List Nat := []
  store : List MetaRecord := []
  use_mulaw : Bool := false
  sampling_rate : Nat := 16000
  websocket : Option Conn := none
  sender_task : Option TaskHandle := none
  synthesized_characters : Nat := 0
  deriving Repr, DecidableEq, Inhabited

/-- The state of a freshly constructed synthesizer (`__init__`). -/
def initElevenState : ElevenState := {}

/-- Update the record at index `i` of a heap in place (Python dict
mutation through a shared reference); out-of-range updates are no-ops. -/
def storeSet {α : Type} : List α → Nat → (α → α) → List α
  | [], _, _ => []
  | r :: rest, 0, f => f r :: rest
  | r :: rest, n + 1, f => r :: storeSet rest n f

/-- The record a reference designates (reading a field of the dict). -/
def storeGet {α : Type} [Inhabited α] : List α → Nat → α
  | [], _ => default
  | r :: _, 0 => r
  | _ :: rest, n + 1 => storeGet rest n

/-- One iteration of the `async for` body of
`ElevenlabsSynthesizer.generate` (lines 126-155) on an inbound message
from `receiver`.  Returns the updated state and the packets yielded, or
`Except.error` when the body raises (reading `self.meta_info['format']`
with `meta_info` still `None`); that exception is caught by the
`try/except` wrapped around the whole loop. -/
def generateStep (s : ElevenState) (message : List Nat) :
    Except Unit (ElevenState × List Packet) :=
  -- if len(self.text_queue) > 0: self.meta_info = self.text_queue.popleft()
  let s :=
    match s.text_queue with
    | [] => s
    | m :: rest => { s with meta_info := some m, text_queue := rest }
  match s.meta_info with
  | none => Except.error ()   -- self.meta_info['format'] raises TypeError
  | some i =>
    -- format tagging and normalization (lines 133-139)
    let s :=
      if s.use_mulaw then
        { s with store := storeSet s.store i fun r => { r with format := some "mulaw" } }
      else
        { s with store := storeSet s.store i fun r => { r with format := some "wav" } }
    let audio :=
      if s.use_mulaw then Audio.raw message
      else resample (convert_audio_to_wav message) s.sampling_rate
    -- yield create_ws_data_packet(audio, self.meta_info)   (line 141)
    let packets := [Packet.mk audio i]
    -- first-chunk bookkeeping (lines 142-144)
    let s :=
      if s.first_chunk_generated then s
      else { s with
        store := storeSet s.store i fun r => { r with is_first_chunk := true },
        first_chunk_generated := true }
    -- lines 146-149: note the source sets last_text_sent to True, not False
    let s :=
      if s.last_text_sent then
        { s with first_chunk_generated := false, last_text_sent := true }
      else s
    -- sentinel handling (lines 151-155)
    if message = [0] then
      let s := { s with
        store := storeSet s.store i fun r => { r with end_of_synthesizer_stream := true } }
      let packets := packets ++ [Packet.mk (resample (Audio.raw message) s.sampling_rate) i]
      Except.ok ({ s with first_chunk_generated := false }, packets)
    else
      Except.ok (s, packets)

/-- Running `generate` over a list of inbound messages.  The `Bool` is true
when an iteration raised: the exception is caught by the `except` clause at
line 157, which logs and lets the generator finish, terminating the
caller's lazy sequence (remaining messages are never processed). -/
def generateRun (s : ElevenState) (msgs : List (List Nat)) :
    ElevenState × List Packet × Bool :=
  match msgs with
  | [] => (s, [], false)
  | m :: ms =>
    match generateStep s m with
    | Except.error _ => (s, [], true)
    | Except.ok (s', ps) =>
      let r := generateRun s' ms
      (r.1, ps ++ r.2.1, r.2.2)

/-- The record reference a `generate` iteration will use: the head of the
queue if one is pending, otherwise the previously active record. -/
def activeMeta (s : ElevenState) : Option Nat :=
  match s.text_queue with
  | [] => s.meta_info
  | m :: _ => some m

/-- `ElevenlabsSynthesizer.push` (lines 193-203), streaming branch (the
constructor forces `self.stream = True`).  The character counter is bumped,
`self.meta_info` is set to a deep copy of the caller's record (line 200, a
fresh allocation), `text` is written into the caller's record (line 201),
the sender task is created, and the caller's record is appended to the
correlation queue (line 203).  The deep copy is allocated at index
`s.store.length`, the caller's record at `s.store.length + 1`.  The sender
task itself is modelled separately (`pushOp` / `taskOp` below); no `await`
occurs between task creation and the queue append, so the whole of `push`
runs before the sender can start. -/
def push (s : ElevenState) (m : MetaRecord) (text : Option String) : ElevenState :=
  { s with
    synthesized_characters :=
      s.synthesized_characters + (match text with | some t => t.length | none => 0),
    meta_info := some s.store.length,
    store := s.store ++ [m, { m with text := text }],
    text_queue := s.text_queue ++ [s.store.length + 1] }

/-- A message handed to the websocket by `sender`. -/
inductive OutMsg where
  | textChunk (s : String)
  | flush
  deriving Repr, DecidableEq, Inhabited

/-- Split a character stream into space-separated words (`acc` holds the
current word, reversed). -/
def chunkWords : List Char → List Char → List String
  | [], [] => []
  | [], acc => [String.mk acc.reverse]
  | c :: cs, acc =>
    if c = ' ' then
      match acc with
      | [] => chunkWords cs []
      | _ :: _ => String.mk acc.reverse :: chunkWords cs []
    else chunkWords cs (c :: acc)

/-- Modelled from the spec: `text_chunker` lives in `BaseSynthesizer`,
which is not among the sources; the spec says it splits text into
transport-safe chunks and never splits inside a word.  We model it as one
chunk per whitespace-separated word. -/
def text_chunker (text : String) : List String :=
  chunkWords text.data []

/-- The chunk-sending loop of `sender` (lines 66-73).  `ok k` tells
whether the `k`-th send attempt succeeds; a failed send is caught and makes
`sender` return at once (line 73), so later chunks are not attempted.
Returns the messages whose send was attempted and whether all succeeded. -/
def sendChunks (chunks : List String) (ok : Nat → Bool) (k : Nat) :
    List OutMsg × Bool :=
  match chunks with
  | [] => ([], true)
  | c :: cs =>
    if ok k then
      let r := sendChunks cs ok (k + 1)
      (OutMsg.textChunk c :: r.1, r.2)
    else
      ([OutMsg.textChunk c], false)

/-- `ElevenlabsSynthesizer.sender` (lines 59-88) after its wait for a live
connection has completed.  Input: the text, the end-of-llm-stream flag, the
current value of `self.last_text_sent`, and the transport success oracle.
Output: the messages whose send was attempted (in order) and the new value
of `last_text_sent`.  When the chunk loop returns early (a chunk send
failed), lines 76-83 are never reached: no flush is attempted and
`last_text_sent` is not updated.  The flush send's own failure is caught
locally (line 82) and does not affect the result, so the flush counts as
attempted whenever control reaches line 81. -/
def sender (text : String) (end_of_llm_stream : Bool) (lts : Bool)
    (ok : Nat → Bool) : List OutMsg × Bool :=
  let chunks := if text ≠ "" then text_chunker text else []
  let r := sendChunks chunks ok 0
  if r.2 then
    (r.1 ++ [OutMsg.flush], if end_of_llm_stream then true else lts)
  else
    (r.1, lts)

/-- One iteration of `ElevenlabsSynthesizer.monitor_connection`
(lines 182-188).  `fresh` is the outcome of `establish_connection`: a new
handle, or `none` when the connect failed (failures are silent, line 180). -/
def monitor_connection_iter (s : ElevenState) (fresh : Option Conn) : ElevenState :=
  match s.websocket with
  | none => { s with websocket := fresh }
  | some c => if c.closed then { s with websocket := fresh } else s

/-- `ElevenlabsSynthesizer.cleanup` (lines 207-219): cancel the sender
task if it exists and is not done (awaiting the cancellation, the
`CancelledError` being caught), close the websocket if present (closing an
already-closed handle is a no-op of the websocket library), then clear the
holder.  Every path is total: no exception escapes. -/
def cleanup (s : ElevenState) : ElevenState :=
  let s :=
    match s.sender_task with
    | none => s
    | some t => if t.done then s else { s with sender_task := some { done := true } }
  { s with websocket := none }

/-- An event observed by one iteration of `ElevenlabsSynthesizer.receiver`
(lines 91-118): either a successfully received and parsed frame (decoded
audio bytes when the `audio` key is present, plus the `isFinal` flag), or
an exception during `recv`/parsing (transport closed, malformed JSON). -/
inductive RecvEvent where
  | frame (audio : Option (List Nat)) (isFinal : Bool)
  | recvError
  deriving Repr, DecidableEq, Inhabited

/-- The messages one receiver iteration yields for an event.  An exception
is caught inside the `while` loop (lines 116-118): the loop sleeps and
continues, yielding nothing.  A frame with no (or empty, i.e. falsy) audio
yields nothing; audio yields the chunk, followed by the `b'\x00'` sentinel
when `isFinal` is set (lines 101-109). -/
def receiverStep : RecvEvent → List (List Nat)
  | RecvEvent.recvError => []
  | RecvEvent.frame none _ => []
  | RecvEvent.frame (some []) _ => []
  | RecvEvent.frame (some bytes) isFinal =>
    if isFinal then [bytes, [0]] else [bytes]

/-- The receiver loop over a sequence of events. -/
def receiverRun : List RecvEvent → List (List Nat)
  | [] => []
  | e :: es => receiverStep e ++ receiverRun es

/-! ## Submission-ordering trace model (`push` / `sender` concurrency)

`push` creates the sender task (line 202) and appends to the correlation
queue (line 203) with no `await` in between, so under asyncio's cooperative
scheduling both complete before the sender task can run its first
instruction.  We model the system as a transition system whose atomic
actions are a whole `push` call and single sends of pending sender tasks,
and record an event trace. -/

/-- A trace event: a metadata record enqueued, or a message sent on the
websocket on behalf of a logical unit. -/
inductive SysEvent where
  | enqueue (id : Nat)
  | sendChunk (id : Nat)
  | sendFlush (id : Nat)
  deriving Repr, DecidableEq, Inhabited

/-- A sender task that has been created but not yet finished sending. -/
structure SenderTask where
  id : Nat
  chunksLeft : Nat
  flushLeft : Bool
  deriving Repr, DecidableEq, Inhabited

/-- State of the submission side: the correlation queue, the pending
sender tasks, and the trace of events so far. -/
structure SysState where
  queue : List Nat
  tasks : List SenderTask
  trace : List SysEvent
  deriving Repr, DecidableEq, Inhabited

/-- The system before any push. -/
def initSysState : SysState := ⟨[], [], []⟩

/-- One `push` call for unit `id` whose text chunks into `nchunks` pieces:
atomically creates the sender task and appends the metadata record. -/
def pushOp (s : SysState) (id nchunks : Nat) : SysState :=
  { queue := s.queue ++ [id],
    tasks := s.tasks ++ [⟨id, nchunks, true⟩],
    trace := s.trace ++ [SysEvent.enqueue id] }

/-- The scheduler lets the `k`-th pending sender task perform its next
single send (one text chunk, then the flush); a finished or missing task
does nothing. -/
def taskOp (s : SysState) (k : Nat) : SysState :=
  match s.tasks.get? k with
  | none => s
  | some t =>
    if 0 < t.chunksLeft then
      { s with
        tasks := s.tasks.set k { t with chunksLeft := t.chunksLeft - 1 },
        trace := s.trace ++ [SysEvent.sendChunk t.id] }
    else if t.flushLeft then
      { s with
        tasks := s.tasks.set k { t with flushLeft := false },
        trace := s.trace ++ [SysEvent.sendFlush t.id] }
    else s

/-- A scheduler action: a `push` call, or one send step of a pending task. -/
inductive SysAction where
  | pushCall (id nchunks : Nat)
  | taskStep (k : Nat)
  deriving Repr, DecidableEq, Inhabited

/-- Apply one scheduler action. -/
def applyAction (s : SysState) : SysAction → SysState
  | SysAction.pushCall id nchunks => pushOp s id nchunks
  | SysAction.taskStep k => taskOp s k

/-- Run an arbitrary interleaving of pushes and sender steps. -/
def sysRun (s : SysState) : List SysAction → SysState
  | [] => s
  | a :: as => sysRun (applyAction s a) as

/-- Ids enqueued in a trace, newest first, on top of `seen`. -/
def enqAfter : List Nat → List SysEvent → List Nat
  | seen, [] => seen
  | seen, SysEvent.enqueue id :: rest => enqAfter (id :: seen) rest
  | seen, SysEvent.sendChunk _ :: rest => enqAfter seen rest
  | seen, SysEvent.sendFlush _ :: rest => enqAfter seen rest

/-- A trace is well-ordered when every send is preceded by the enqueue of
the same unit's metadata record (given `seen`, the ids enqueued before the
trace started). -/
def traceOk : List Nat → List SysEvent → Bool
  | _, [] => true
  | seen, SysEvent.enqueue id :: rest => traceOk (id :: seen) rest
  | seen, SysEvent.sendChunk id :: rest => seen.contains id && traceOk seen rest
  | seen, SysEvent.sendFlush id :: rest => seen.contains id && traceOk seen rest

/-! ## The Azure transcriber (`src/bolna/transcriber/azure_transcriber.py`) -/

namespace Azure

/-- A metadata record of the audio-ingestion adapter (the Python dict in
`ws_data_packet['meta_info']`); absent keys are the defaults. -/
structure AzMeta where
  request_id : Option Nat := none
  eos : Bool := false
  deriving Repr, DecidableEq, Inhabited

/-- An inbound packet from the input queue: a reference to its metadata
record and an optional audio payload (`some []` models a present-but-empty,
hence falsy, byte string). -/
structure InPacket where
  meta : Nat
  data : Option (List Nat) := none
  deriving Repr, DecidableEq, Inhabited

/-- Payload of a result pushed to the output queue by the handlers. -/
inductive AzOut where
  | interim (text : String)
  | final (text : String)
  | connectionClosed
  deriving Repr, DecidableEq, Inhabited

/-- A result unit on the output queue (`create_ws_data_packet(data,
self.meta_info)`): the payload and a reference to the adapter's single
active metadata record (`none` while no audio has ever been submitted). -/
structure OutPacket where
  data : AzOut
  meta : Option Nat
  deriving Repr, DecidableEq, Inhabited

/-- Mutable state of an `AzureTranscriber` instance.  `nextId` is the
state of the request-id generator.  `stopped` records that the
`send_audio_to_transcriber` loop has exited (`break` after end of stream,
or an uncaught error reaching the `except` at line 76). -/
structure AzureState where
  audio_submitted : Bool := false
  meta_info : Option Nat := none
  current_request_id : Option Nat := none
  push_stream : Bool := true
  recognizer : Bool := true
  stopped : Bool := false
  nextId : Nat := 0
  store : List AzMeta := []
  written : List (List Nat) := []
  deriving Repr, DecidableEq, Inhabited

/-- Modelled from the spec: `generate_request_id` lives in
`BaseTranscriber`, which is not among the sources; the spec's data model
says the metadata carries a request id, so we model the generator as a
counter in the adapter state returning a fresh identifier. -/
def generate_request_id (s : AzureState) : Nat × AzureState :=
  (s.nextId, { s with nextId := s.nextId + 1 })

/-- `AzureTranscriber.cleanup` (lines 220-239): close and clear the push
stream, stop and clear the recognizer; every error is caught. -/
def cleanup (s : AzureState) : AzureState :=
  { s with push_stream := false, recognizer := false }

/-- `AzureTranscriber._check_and_process_end_of_stream` (lines 52-57):
when the packet's own metadata record has `eos` set to `True`, run
`cleanup` and report end of stream. -/
def check_and_process_end_of_stream (s : AzureState) (p : InPacket) :
    AzureState × Bool :=
  if (Bolna.storeGet s.store p.meta).eos then (cleanup s, true) else (s, false)

/-- One iteration of the `while True` loop of
`AzureTranscriber.send_audio_to_transcriber` (lines 61-75) consuming one
packet.  If the loop has already exited, the packet is simply not
consumed.  On the first packet ever, the adapter captures the packet's
metadata record as its own and stamps a freshly generated request id into
it (lines 63-68).  Then the end-of-stream check runs, and only if it says
to continue is a truthy payload written to the push stream (lines 70-75);
a write on a closed (cleared) push stream raises, which the `except` at
line 76 turns into loop exit. -/
def send_audio_iter (s : AzureState) (p : InPacket) : AzureState :=
  if s.stopped then s
  else
    let s :=
      if s.audio_submitted then s
      else
        let r := generate_request_id s
        { r.2 with
          meta_info := some p.meta,
          audio_submitted := true,
          current_request_id := some r.1,
          store := Bolna.storeSet r.2.store p.meta
            (fun m => { m with request_id := some r.1 }) }
    let r := check_and_process_end_of_stream s p
    if r.2 then { r.1 with stopped := true }
    else
      match p.data with
      | none => s
      | some [] => s
      | some d =>
        if s.push_stream then { s with written := s.written ++ [d] }
        else { s with stopped := true }

/-- An event the adapter reacts to: a packet read from the input queue, or
one of the recognizer callbacks (lines 162-205). -/
inductive AzEvent where
  | packet (p : InPacket)
  | recognizing (text : String)
  | recognized (text : String)
  | canceled
  | sessionStarted
  | sessionStopped
  deriving Repr, DecidableEq, Inhabited

/-- Process one event: packets feed `send_audio_iter`; the `recognizing`,
`recognized` and `session_stopped` handlers put a result built from
`self.meta_info` on the output queue (lines 178-205); `canceled` and
`session_started` only log. -/
def azStep (s : AzureState) : AzEvent → AzureState × List OutPacket
  | AzEvent.packet p => (send_audio_iter s p, [])
  | AzEvent.recognizing t => (s, [⟨AzOut.interim t, s.meta_info⟩])
  | AzEvent.recognized t => (s, [⟨AzOut.final t, s.meta_info⟩])
  | AzEvent.canceled => (s, [])
  | AzEvent.sessionStarted => (s, [])
  | AzEvent.sessionStopped => (s, [⟨AzOut.connectionClosed, s.meta_info⟩])

/-- Run the adapter over an interleaving of input packets and recognizer
callbacks, collecting the results pushed to the output queue. -/
def azRun (s : AzureState) : List AzEvent → AzureState × List OutPacket
  | [] => (s, [])
  | e :: es =>
    let r := azStep s e
    let r2 := azRun r.1 es
    (r2.1, r.2 ++ r2.2)

end Azure

/-! ## Helper lemmas -/

lemma length_storeSet {α : Type} (l : List α) (i : Nat) (f : α → α) :
    (storeSet l i f).length = l.length := by
  induction l generalizing i with
  | nil => rfl
  | cons a rest ih =>
    cases i with
    | zero => rfl
    | succ i => simpa [storeSet] using ih i

lemma storeGet_storeSet {α : Type} [Inhabited α] (l : List α) (i j : Nat) (f : α → α) :
    storeGet (storeSet l i f) j =
      if j = i ∧ i < l.length then f (storeGet l j) else storeGet l j := by
  induction l generalizing i j with
  | nil => simp [storeSet, storeGet]
  | cons a rest ih =>
    cases i with
    | zero =>
      cases j with
      | zero => simp [storeSet, storeGet]
      | succ j => simp [storeSet, storeGet]
    | succ i =>
      cases j with
      | zero => simp [storeSet, storeGet]
      | succ j =>
        simpa [storeSet, storeGet, Nat.succ_lt_succ_iff] using ih i j

lemma storeGet_storeSet_self {α : Type} [Inhabited α] (l : List α) (i : Nat)
    (f : α → α) (h : i < l.length) :
    storeGet (storeSet l i f) i = f (storeGet l i) := by
  simp [storeGet_storeSet, h]

lemma storeGet_storeSet_out {α : Type} [Inhabited α] (l : List α) (i j : Nat)
    (f : α → α) (h : ¬(j = i ∧ i < l.length)) :
    storeGet (storeSet l i f) j = storeGet l j := by
  simp only [storeGet_storeSet, if_neg h]

lemma storeGet_past_end {α : Type} [Inhabited α] (l : List α) (n : Nat)
    (h : l.length ≤ n) : storeGet l n = default := by
  induction l generalizing n with
  | nil => cases n <;> rfl
  | cons a rest ih =>
    cases n with
    | zero => simp at h
    | succ n => exact ih n (Nat.le_of_succ_le_succ h)

/-- A successful `generate` iteration: the active record becomes (stays)
the current metadata, the queue loses at most its head, every yielded
packet references the active record, and the store keeps its length. -/
lemma generateStep_spec (t : ElevenState) (m : List Nat) (i : Nat)
    (h : activeMeta t = some i) :
    ∃ t' ps, generateStep t m = Except.ok (t', ps) ∧
      t'.meta_info = some i ∧
      t'.text_queue = t.text_queue.tail ∧
      (∀ p ∈ ps, p.meta = i) ∧
      ps ≠ [] ∧
      t'.store.length = t.store.length ∧
      t'.use_mulaw = t.use_mulaw ∧
      t'.websocket = t.websocket := by
  obtain ⟨fcg, lts, mi, tq, st, um, sr, ws, task, sc⟩ := t
  cases tq with
  | nil =>
    cases mi with
    | none => simp [activeMeta] at h
    | some i0 =>
      obtain rfl : i0 = i := by simpa [activeMeta] using h
      dsimp only [generateStep]
      split_ifs <;>
        exact ⟨_, _, rfl, rfl, rfl, by simp, by simp,
          by simp [length_storeSet], rfl, rfl⟩
  | cons m0 rest =>
    obtain rfl : m0 = i := by simpa [activeMeta] using h
    dsimp only [generateStep]
    split_ifs <;>
      exact ⟨_, _, rfl, rfl, rfl, by simp, by simp,
        by simp [length_storeSet], rfl, rfl⟩

/-- A `generate` iteration raises (ending the generator) exactly when the
queue is empty and no record was ever active. -/
lemma generateStep_error_iff (t : ElevenState) (m : List Nat) :
    (∃ e, generateStep t m = Except.error e) ↔ activeMeta t = none := by
  obtain ⟨fcg, lts, mi, tq, st, um, sr, ws, task, sc⟩ := t
  cases tq with
  | nil =>
    cases mi with
    | none => simp [activeMeta, generateStep]
    | some i =>
      unfold generateStep activeMeta
      split_ifs <;> simp
  | cons m0 rest =>
    unfold generateStep activeMeta
    split_ifs <;> simp

/-- All chunk sends succeed when the transport oracle always succeeds. -/
lemma sendChunks_all_ok (chunks : List String) (ok : Nat → Bool)
    (h : ∀ k, ok k = true) (k : Nat) : (sendChunks chunks ok k).2 = true := by
  induction chunks generalizing k with
  | nil => rfl
  | cons c cs ih => simp [sendChunks, h k, ih (k + 1)]

/-- Once a record other than `i` is active and `i` is not queued, no
packet of any further run references record `i`, and `i` never becomes
active again. -/
lemma generateRun_avoids (i : Nat) (msgs : List (List Nat)) (t : ElevenState)
    (hm : t.meta_info ≠ some i) (hq : i ∉ t.text_queue) :
    (∀ p ∈ (generateRun t msgs).2.1, p.meta ≠ i) ∧
    (generateRun t msgs).1.meta_info ≠ some i ∧
    i ∉ (generateRun t msgs).1.text_queue := by
  induction msgs generalizing t with
  | nil => exact ⟨by simp [generateRun], by simpa [generateRun] using hm,
      by simpa [generateRun] using hq⟩
  | cons m ms ih =>
    rcases hact : activeMeta t with _ | j
    · obtain ⟨e, he⟩ := (generateStep_error_iff t m).mpr hact
      refine ⟨by simp [generateRun, he], ?_, ?_⟩
      · simpa [generateRun, he] using hm
      · simpa [generateRun, he] using hq
    · have hji : j ≠ i := by
        intro hc; subst hc
        rcases htq : t.text_queue with _ | ⟨a, rest⟩
        · simp [activeMeta, htq] at hact
          exact hm hact
        · simp [activeMeta, htq] at hact
          subst hact
          exact hq (by rw [htq]; exact List.mem_cons_self _ _)
      obtain ⟨t', ps, hstep, hmi, htq', hps, -, -, -, -⟩ :=
        generateStep_spec t m j hact
      have hm' : t'.meta_info ≠ some i := by
        rw [hmi]; intro hc
        exact hji (by injection hc)
      have hq' : i ∉ t'.text_queue := by
        rw [htq']; intro hc
        exact hq (List.mem_of_mem_tail hc)
      obtain ⟨ih1, ih2, ih3⟩ := ih t' hm' hq'
      refine ⟨?_, by simpa [generateRun, hstep] using ih2,
        by simpa [generateRun, hstep] using ih3⟩
      intro p hp
      simp only [generateRun, hstep] at hp
      rcases List.mem_append.mp hp with hpl | hpr
      · rw [hps p hpl]; exact hji
      · exact ih1 p hpr

/-! ## Claim theorems -/

/-- C3: while the correlation queue is empty, processing an inbound event
reuses the previously active metadata record and raises no exception; and
a `generate` iteration pops at most one queue entry and pops nothing from
an empty queue, so the queue size (a natural number in this model, a
`len()` of a `deque` in the source) never goes negative. -/
theorem c3_empty_queue_reuses_active (s : ElevenState) (msg : List Nat) (i : Nat)
    (h1 : s.text_queue = []) (h2 : s.meta_info = some i) :
    (∃ s' ps, generateStep s msg = Except.ok (s', ps) ∧
       s'.meta_info = some i ∧ s'.text_queue = []) ∧
    ∀ (t t' : ElevenState) (m : List Nat) (ps : List Packet),
      generateStep t m = Except.ok (t', ps) →
        t.text_queue.length ≤ t'.text_queue.length + 1 ∧
        (t.text_queue = [] → t'.text_queue = []) := by
  constructor
  · have hact : activeMeta s = some i := by rw [activeMeta, h1]; exact h2
    obtain ⟨s', ps, hstep, hmi, htq, -⟩ := generateStep_spec s msg i hact
    exact ⟨s', ps, hstep, hmi, by rw [htq, h1]; rfl⟩
  · intro t t' m ps h
    rcases hact : activeMeta t with _ | j
    · obtain ⟨e, he⟩ := (generateStep_error_iff t m).mpr hact
      rw [he] at h; cases h
    · obtain ⟨t'', ps'', hstep, -, htq, -⟩ := generateStep_spec t m j hact
      rw [hstep] at h
      injection h with h'
      injection h' with ht hp
      subst ht
      constructor
      · rw [htq]
        cases t.text_queue <;> simp
      · intro he; rw [htq, he]; rfl

/-- C3 witness. -/
theorem c3_empty_queue_reuses_active_witness :
    (∃ s' ps, generateStep { initElevenState with meta_info := some 0 } [1]
        = Except.ok (s', ps) ∧
       s'.meta_info = some 0 ∧ s'.text_queue = []) ∧
    ∀ (t t' : ElevenState) (m : List Nat) (ps : List Packet),
      generateStep t m = Except.ok (t', ps) →
        t.text_queue.length ≤ t'.text_queue.length + 1 ∧
        (t.text_queue = [] → t'.text_queue = []) :=
  c3_empty_queue_reuses_active { initElevenState with meta_info := some 0 } [1] 0
    rfl rfl

/-- C6: one supervisor iteration with a present, live handle leaves the
whole state unchanged (reconnect when already connected is a no-op), and
no supervisor iteration ever touches the correlation queue. -/
theorem c6_monitor_reconnect_noop (s : ElevenState) (c : Conn) (fresh : Option Conn)
    (h1 : s.websocket = some c) (h2 : c.closed = false) :
    monitor_connection_iter s fresh = s ∧
    ∀ (t : ElevenState) (f : Option Conn),
      (monitor_connection_iter t f).text_queue = t.text_queue := by
  constructor
  · simp [monitor_connection_iter, h1, h2]
  · intro t f
    rw [monitor_connection_iter]
    cases t.websocket with
    | none => rfl
    | some c' => by_cases hc : c'.closed <;> simp [hc]

/-- C6 witness. -/
theorem c6_monitor_reconnect_noop_witness :
    monitor_connection_iter { initElevenState with websocket := some ⟨7, false⟩ } none
      = { initElevenState with websocket := some ⟨7, false⟩ } ∧
    ∀ (t : ElevenState) (f : Option Conn),
      (monitor_connection_iter t f).text_queue = t.text_queue :=
  c6_monitor_reconnect_noop { initElevenState with websocket := some ⟨7, false⟩ }
    ⟨7, false⟩ none rfl rfl

/-- C7: `cleanup` always leaves the connection handle absent, is
idempotent as a state transformer (so a second call changes nothing and
raises nothing — the model is a total function because every exception
path in the source is caught), and on a never-started adapter it only
clears the already-absent handle. -/
theorem c7_cleanup_idempotent :
    (∀ s : ElevenState, (cleanup s).websocket = none) ∧
    (∀ s : ElevenState, cleanup (cleanup s) = cleanup s) ∧
    cleanup initElevenState = initElevenState := by
  refine ⟨fun s => rfl, fun s => ?_, rfl⟩
  · obtain ⟨fcg, lts, mi, tq, st, um, sr, ws, task, sc⟩ := s
    cases task with
    | none => rfl
    | some t =>
      obtain ⟨d⟩ := t
      cases d <;> rfl

/-- C4 counterexample: with nonempty text `"hello"` and a transport whose
first send fails, `sender` returns at line 73 before ever reaching the
flush at line 81, so no empty-flush message is attempted.  This refutes
"an empty-flush message is sent ... regardless of whether sending any
individual text chunk failed". -/
theorem c4_counterexample :
    (sender "hello" false false (fun _ => false)).1 = [OutMsg.textChunk "hello"] ∧
    OutMsg.flush ∉ (sender "hello" false false (fun _ => false)).1 := by
  constructor
  · rfl
  · intro h
    rw [show (sender "hello" false false (fun _ => false)).1
        = [OutMsg.textChunk "hello"] from rfl] at h
    simp at h

/-- C4 (amended): with a live connection, whenever every individual chunk
send succeeds, the empty-flush message is attempted at the end of the
logical unit, for every input text including the empty string.  (When a
chunk send fails, `sender` returns early and no flush is sent.) -/
theorem c4_flush_always_sent (text : String) (eol lts : Bool) (ok : Nat → Bool)
    (h : ∀ k, ok k = true) :
    OutMsg.flush ∈ (sender text eol lts ok).1 := by
  rw [sender]
  have hs := sendChunks_all_ok (if text ≠ "" then text_chunker text else []) ok h 0
  simp only [hs, if_pos rfl]
  simp

/-- C4 witness: the flush is attempted even for empty text. -/
theorem c4_flush_always_sent_witness :
    OutMsg.flush ∈ (sender "" false false (fun _ => true)).1 :=
  c4_flush_always_sent "" false false (fun _ => true) (fun _ => rfl)

/-- C8 counterexample: an error during result processing terminates the
lazy sequence.  From a freshly started adapter (no record ever active),
an inbound event makes the `generate` body raise (`self.meta_info` is
`None` at line 134/137); the exception is caught by the handler wrapped
around the whole loop (line 157), the generator ends, and the second
message is never processed — the caller's sequence terminates instead of
retrying.  This refutes "the Result Path's lazy sequence does not
terminate" for errors during result processing. -/
theorem c8_counterexample :
    (generateRun initElevenState [[1], [2]]).2.2 = true ∧
    (generateRun initElevenState [[1], [2]]).2.1 = [] := by
  exact ⟨rfl, rfl⟩

/-- C8 (amended): errors during reception are caught inside the receiver
loop (lines 116-118), which pauses and retries: a receive/parse error
yields nothing and the loop goes on to process every later event, so the
receiver never terminates on such an error.  (An error in the `generate`
body, by contrast, ends the generator: see the counterexample.) -/
theorem c8_receiver_errors_never_terminate (es1 es2 : List RecvEvent) :
    receiverRun (es1 ++ RecvEvent.recvError :: es2)
      = receiverRun es1 ++ receiverRun es2 := by
  induction es1 with
  | nil => simp [receiverRun, receiverStep]
  | cons e es ih => simp [receiverRun, ih]

/-- One logical unit pushed (deep copy at index 0, the queued caller
record at index 1), answered by two plain audio chunks. -/
def c1Run : ElevenState × List Packet × Bool :=
  generateRun
    (push { initElevenState with use_mulaw := true } { request_id := 1 } (some "hi"))
    [[1], [2]]

/-- C1 counterexample: one unit pushed, two audio chunks received.  The
flag is written into the shared metadata record right after the first
yield and never cleared, so — results holding the record by reference —
both emitted results carry `is_first_chunk = true`, not exactly one.  (In
particular the set-then-clear step the claim describes does not exist:
only the separate bookkeeping boolean `first_chunk_generated` is ever
reset, at lines 148 and 155.) -/
theorem c1_counterexample :
    c1Run.2.2 = false ∧
    (c1Run.2.1.filter fun p => (storeGet c1Run.1.store p.meta).is_first_chunk).length
      = 2 ∧
    c1Run.2.1.length = 2 := by
  exact ⟨rfl, rfl, rfl⟩

/-- C1 (amended): when a message is processed while the bookkeeping flag
`first_chunk_generated` is clear, `is_first_chunk = true` is written into
the active metadata record immediately after the unit's first emission
(and the bookkeeping flag is set, so the write happens once per
bookkeeping period); every packet of the iteration references that
record; and the record-level flag is never cleared by an iteration —
every already-set `is_first_chunk` stays set. -/
theorem c1_first_chunk_set_once_never_cleared (s : ElevenState) (msg : List Nat)
    (i : Nat) (h1 : activeMeta s = some i) (h2 : i < s.store.length)
    (h3 : s.first_chunk_generated = false) :
    ∃ s' ps, generateStep s msg = Except.ok (s', ps) ∧
      (storeGet s'.store i).is_first_chunk = true ∧
      (∀ p ∈ ps, p.meta = i) ∧
      ∀ j, (storeGet s.store j).is_first_chunk = true →
        (storeGet s'.store j).is_first_chunk = true := by
  obtain ⟨fcg, lts, mi, tq, st, um, sr, ws, task, sc⟩ := s
  obtain rfl : fcg = false := h3
  simp only at h2
  cases tq with
  | nil =>
    cases mi with
    | none => simp [activeMeta] at h1
    | some i0 =>
      obtain rfl : i0 = i := by simpa [activeMeta] using h1
      dsimp only [generateStep]
      split_ifs <;>
        refine ⟨_, _, rfl, ?_, by simp, ?_⟩ <;>
        · intros
          simp_all [storeGet_storeSet, length_storeSet]
          try (split_ifs <;> simp_all)
  | cons m0 rest =>
    obtain rfl : m0 = i := by simpa [activeMeta] using h1
    dsimp only [generateStep]
    split_ifs <;>
      refine ⟨_, _, rfl, ?_, by simp, ?_⟩ <;>
      · intros
        simp_all [storeGet_storeSet, length_storeSet]
        try (split_ifs <;> simp_all)

/-- The concrete state for the C1 witness: a record active, nothing
queued, first chunk not yet generated. -/
def c1WitState : ElevenState :=
  { initElevenState with meta_info := some 0, store := [{ request_id := 5 }] }

/-- C1 witness. -/
theorem c1_first_chunk_witness :
    ∃ s' ps, generateStep c1WitState [3] = Except.ok (s', ps) ∧
      (storeGet s'.store 0).is_first_chunk = true ∧
      (∀ p ∈ ps, p.meta = 0) ∧
      ∀ j, (storeGet c1WitState.store j).is_first_chunk = true →
        (storeGet s'.store j).is_first_chunk = true :=
  c1_first_chunk_set_once_never_cleared c1WitState [3] 0 rfl (by decide) rfl

/-- Unit A pushed with `end_of_llm_stream = true` (deep copy at index 0,
queued caller record at index 1), then one audio chunk for A processed. -/
def c2Mid : ElevenState :=
  (generateRun
    (push { initElevenState with use_mulaw := true }
      { request_id := 1, end_of_llm_stream := true } (some "bye"))
    [[5]]).1

/-- Unit B pushed (deep copy at index 2, queued record at index 3) before
A's sentinel arrives, then the sentinel processed. -/
def c2Final : ElevenState × List Packet × Bool :=
  generateRun (push c2Mid { request_id := 2 } (some "next")) [[0]]

/-- C2 counterexample: unit A carries the end-of-upstream-input flag, but
unit B is pushed (fire-and-forget) before A's sentinel is processed.  The
sentinel iteration starts by popping the queue (line 129-130), so B's
queued record becomes active: `end_of_synthesizer_stream = true` lands on
B's record (index 3) and both sentinel-step results reference B.  Neither
of A's records (indices 0 and 1) ever receives the end-of-stream flag, so
the result sequence contains no final result for A — refuting the claim
for this submitted-with-eos unit. -/
theorem c2_counterexample :
    (storeGet c2Final.1.store 1).end_of_llm_stream = true ∧
    (storeGet c2Final.1.store 0).end_of_synthesizer_stream = false ∧
    (storeGet c2Final.1.store 1).end_of_synthesizer_stream = false ∧
    (storeGet c2Final.1.store 3).end_of_synthesizer_stream = true ∧
    c2Final.2.1.map Packet.meta = [3, 3] ∧
    c2Final.2.2 = false := by
  exact ⟨rfl, rfl, rfl, rfl, rfl, rfl⟩

/-- C2 (amended): the end-of-stream guarantee holds for the unit whose
record is active when the sentinel is processed, provided the correlation
queue is empty at that moment (no later unit was pushed in between): the
sentinel iteration emits exactly two results, the last referencing the
unit's record, writes `end_of_synthesizer_stream = true` into that record,
resets the first-chunk bookkeeping, and keeps the record active.  And once
a different record is active and the unit's record is no longer queued, no
further result ever references the unit's record. -/
theorem c2_end_of_stream_on_sentinel (s : ElevenState) (i : Nat)
    (h1 : s.meta_info = some i) (h2 : s.text_queue = [])
    (h3 : i < s.store.length) :
    (∃ s' p1 p2, generateStep s [0] = Except.ok (s', [p1, p2]) ∧
       p2.meta = i ∧
       (storeGet s'.store i).end_of_synthesizer_stream = true ∧
       s'.first_chunk_generated = false ∧
       s'.meta_info = some i) ∧
    ∀ (t : ElevenState) (msgs : List (List Nat)),
      t.meta_info ≠ some i → i ∉ t.text_queue →
        ∀ p ∈ (generateRun t msgs).2.1, p.meta ≠ i := by
  constructor
  · obtain ⟨fcg, lts, mi, tq, st, um, sr, ws, task, sc⟩ := s
    obtain rfl : tq = [] := h2
    obtain rfl : mi = some i := h1
    simp only at h3
    dsimp only [generateStep]
    split_ifs with hum hfcg hlts <;> first
      | exact absurd rfl (by assumption)
      | · refine ⟨_, _, _, rfl, rfl, ?_, rfl, rfl⟩
          simp [storeGet_storeSet, length_storeSet, h3]
  · intro t msgs hm hq
    exact (generateRun_avoids i msgs t hm hq).1

/-- The concrete state for the C2 witness: record 0 active, queue empty. -/
def c2WitState : ElevenState :=
  { initElevenState with meta_info := some 0, store := [{ request_id := 9 }] }

/-- C2 witness. -/
theorem c2_end_of_stream_witness :
    (∃ s' p1 p2, generateStep c2WitState [0] = Except.ok (s', [p1, p2]) ∧
       p2.meta = 0 ∧
       (storeGet s'.store 0).end_of_synthesizer_stream = true ∧
       s'.first_chunk_generated = false ∧
       s'.meta_info = some 0) ∧
    ∀ (t : ElevenState) (msgs : List (List Nat)),
      t.meta_info ≠ some 0 → 0 ∉ t.text_queue →
        ∀ p ∈ (generateRun t msgs).2.1, p.meta ≠ 0 :=
  c2_end_of_stream_on_sentinel c2WitState 0 rfl rfl (by decide)

/-- `enqAfter` over a concatenation. -/
lemma enqAfter_append (seen : List Nat) (l1 l2 : List SysEvent) :
    enqAfter seen (l1 ++ l2) = enqAfter (enqAfter seen l1) l2 := by
  induction l1 generalizing seen with
  | nil => rfl
  | cons e rest ih => cases e <;> simp [enqAfter, ih]

/-- `traceOk` over a concatenation. -/
lemma traceOk_append (seen : List Nat) (l1 l2 : List SysEvent) :
    traceOk seen (l1 ++ l2)
      = (traceOk seen l1 && traceOk (enqAfter seen l1) l2) := by
  induction l1 generalizing seen with
  | nil => simp [traceOk, enqAfter]
  | cons e rest ih =>
    cases e <;> simp [traceOk, enqAfter, ih, Bool.and_assoc]

/-- Enqueued ids only accumulate. -/
lemma contains_enqAfter (seen : List Nat) (l : List SysEvent) (id : Nat)
    (h : seen.contains id = true) : (enqAfter seen l).contains id = true := by
  induction l generalizing seen with
  | nil => exact h
  | cons e rest ih =>
    cases e with
    | enqueue j =>
      refine ih (j :: seen) ?_
      have hmem : id ∈ seen := by simpa using h
      simp [List.contains_cons, hmem]
    | sendChunk j => exact ih seen h
    | sendFlush j => exact ih seen h

/-- The submission-side invariant: the trace is well-ordered and every
pending sender task's unit has its record enqueued already. -/
def SysInv (s : SysState) : Prop :=
  traceOk [] s.trace = true ∧
  ∀ t ∈ s.tasks, (enqAfter [] s.trace).contains t.id = true

/-- A `push` call preserves the invariant: the enqueue event is appended
to the trace in the same atomic action that creates the sender task. -/
lemma sysInv_pushOp (s : SysState) (id nchunks : Nat) (h : SysInv s) :
    SysInv (pushOp s id nchunks) := by
  obtain ⟨h1, h2⟩ := h
  constructor
  · simp [pushOp, traceOk_append, h1, traceOk]
  · intro t ht
    simp only [pushOp] at ht
    rw [pushOp]
    simp only [enqAfter_append, enqAfter]
    rcases List.mem_append.mp ht with hold | hnew
    · have hmem : t.id ∈ enqAfter [] s.trace := by simpa using h2 t hold
      simp [List.contains_cons, hmem]
    · obtain rfl : t = ⟨id, nchunks, true⟩ := by simpa using hnew
      simp [List.contains_cons]

/-- A single send step of a pending task preserves the invariant: the
task's unit is already enqueued, so the appended send event is covered. -/
lemma sysInv_taskOp (s : SysState) (k : Nat) (h : SysInv s) :
    SysInv (taskOp s k) := by
  obtain ⟨h1, h2⟩ := h
  rw [taskOp]
  cases hget : s.tasks.get? k with
  | none => exact ⟨h1, h2⟩
  | some t =>
    have htmem : t ∈ s.tasks := List.get?_mem hget
    have hcov : (enqAfter [] s.trace).contains t.id = true := h2 t htmem
    have hmem : t.id ∈ enqAfter [] s.trace := by simpa using hcov
    by_cases hc : 0 < t.chunksLeft
    · simp only [hc, if_pos]
      refine ⟨?_, ?_⟩
      · simp [traceOk_append, h1, traceOk, enqAfter, hmem]
      · intro u hu
        simp only [enqAfter_append, enqAfter]
        rcases List.mem_or_eq_of_mem_set hu with hold | rfl
        · exact h2 u hold
        · exact hcov
    · simp only [hc, if_neg, if_false]
      by_cases hf : t.flushLeft = true
      · simp only [hf, if_pos]
        refine ⟨?_, ?_⟩
        · simp [traceOk_append, h1, traceOk, enqAfter, hmem]
        · intro u hu
          simp only [enqAfter_append, enqAfter]
          rcases List.mem_or_eq_of_mem_set hu with hold | rfl
          · exact h2 u hold
          · exact hcov
      · simp only [hf, if_neg, if_false]
        exact ⟨h1, h2⟩

/-- Any interleaving of pushes and sender steps preserves the invariant. -/
lemma sysInv_sysRun (as : List SysAction) (s : SysState) (h : SysInv s) :
    SysInv (sysRun s as) := by
  induction as generalizing s with
  | nil => exact h
  | cons a rest ih =>
    cases a with
    | pushCall id nchunks => exact ih _ (sysInv_pushOp s id nchunks h)
    | taskStep k => exact ih _ (sysInv_taskOp s k h)

/-- C5: under every interleaving of `push` calls and sender-task send
steps starting from a fresh adapter, the event trace is well-ordered —
every websocket send on behalf of a unit is preceded by the enqueue of
that unit's metadata record (line 203 runs before the task created at
line 202 can start, since no `await` separates them) — and each `push`
appends exactly one metadata record to the correlation queue. -/
theorem c5_enqueue_before_any_send :
    (∀ as : List SysAction, traceOk [] (sysRun initSysState as).trace = true) ∧
    ∀ (s : SysState) (id nchunks : Nat),
      (pushOp s id nchunks).queue = s.queue ++ [id] ∧
      (pushOp s id nchunks).trace = s.trace ++ [SysEvent.enqueue id] := by
  constructor
  · intro as
    exact (sysInv_sysRun as initSysState ⟨rfl, by simp [initSysState]⟩).1
  · intro s id nchunks
    exact ⟨rfl, rfl⟩

namespace Azure

/-- Once audio has been submitted, consuming a further packet never
changes the captured metadata reference, the request id, the id-generator
state, or the store. -/
lemma send_audio_iter_submitted (s : AzureState) (p : InPacket)
    (h : s.audio_submitted = true) :
    (send_audio_iter s p).audio_submitted = true ∧
    (send_audio_iter s p).meta_info = s.meta_info ∧
    (send_audio_iter s p).current_request_id = s.current_request_id ∧
    (send_audio_iter s p).nextId = s.nextId ∧
    (send_audio_iter s p).store = s.store := by
  rw [send_audio_iter]
  by_cases hst : s.stopped = true
  · simp [hst, h]
  · simp only [Bool.not_eq_true] at hst
    simp only [hst, Bool.false_eq_true, if_false, h, if_true,
      check_and_process_end_of_stream]
    by_cases heos : (Bolna.storeGet s.store p.meta).eos = true
    · simp [heos, cleanup, h]
    · rcases p with ⟨pm, pd⟩
      simp only at heos
      cases pd with
      | none => simp [heos, h]
      | some d =>
        cases d with
        | nil => simp [heos, h]
        | cons b bs =>
          by_cases hps : s.push_stream = true <;> simp [heos, hps, h]

/-- Once audio has been submitted, processing any further event preserves
the captured record and id state, and every emitted result references the
captured record. -/
lemma azStep_submitted (s : AzureState) (e : AzEvent)
    (h : s.audio_submitted = true) :
    (azStep s e).1.audio_submitted = true ∧
    (azStep s e).1.meta_info = s.meta_info ∧
    (azStep s e).1.current_request_id = s.current_request_id ∧
    (azStep s e).1.nextId = s.nextId ∧
    (azStep s e).1.store = s.store ∧
    ∀ q ∈ (azStep s e).2, q.meta = s.meta_info := by
  cases e with
  | packet p =>
    obtain ⟨k1, k2, k3, k4, k5⟩ := send_audio_iter_submitted s p h
    exact ⟨k1, k2, k3, k4, k5, by simp [azStep]⟩
  | recognizing t => exact ⟨h, rfl, rfl, rfl, rfl, by simp [azStep]⟩
  | recognized t => exact ⟨h, rfl, rfl, rfl, rfl, by simp [azStep]⟩
  | canceled => exact ⟨h, rfl, rfl, rfl, rfl, by simp [azStep]⟩
  | sessionStarted => exact ⟨h, rfl, rfl, rfl, rfl, by simp [azStep]⟩
  | sessionStopped => exact ⟨h, rfl, rfl, rfl, rfl, by simp [azStep]⟩

/-- Run-level version of `azStep_submitted`. -/
lemma azRun_submitted (es : List AzEvent) (s : AzureState)
    (h : s.audio_submitted = true) :
    (azRun s es).1.audio_submitted = true ∧
    (azRun s es).1.meta_info = s.meta_info ∧
    (azRun s es).1.current_request_id = s.current_request_id ∧
    (azRun s es).1.nextId = s.nextId ∧
    (azRun s es).1.store = s.store ∧
    ∀ q ∈ (azRun s es).2, q.meta = s.meta_info := by
  induction es generalizing s with
  | nil => exact ⟨h, rfl, rfl, rfl, rfl, by simp [azRun]⟩
  | cons e rest ih =>
    obtain ⟨k1, k2, k3, k4, k5, k6⟩ := azStep_submitted s e h
    obtain ⟨j1, j2, j3, j4, j5, j6⟩ := ih (azStep s e).1 k1
    refine ⟨by simpa [azRun] using j1,
      by simp only [azRun]; rw [j2, k2],
      by simp only [azRun]; rw [j3, k3],
      by simp only [azRun]; rw [j4, k4],
      by simp only [azRun]; rw [j5, k5], ?_⟩
    intro q hq
    simp only [azRun, List.mem_append] at hq
    rcases hq with hql | hqr
    · exact k6 q hql
    · rw [j6 q hqr, k2]

/-- The first packet ever: the adapter captures the packet's record,
generates one request id and stamps it into the record. -/
lemma send_audio_iter_first (st : AzureState) (p : InPacket)
    (h0 : st.audio_submitted = false) (h1 : st.stopped = false)
    (h2 : p.meta < st.store.length) :
    (send_audio_iter st p).audio_submitted = true ∧
    (send_audio_iter st p).meta_info = some p.meta ∧
    (send_audio_iter st p).current_request_id = some st.nextId ∧
    (send_audio_iter st p).nextId = st.nextId + 1 ∧
    (Bolna.storeGet (send_audio_iter st p).store p.meta).request_id
      = some st.nextId := by
  rcases p with ⟨pm, pd⟩
  simp only at h2 ⊢
  rw [send_audio_iter]
  simp only [h1, Bool.false_eq_true, if_false, h0, generate_request_id,
    check_and_process_end_of_stream]
  by_cases heos : (Bolna.storeGet st.store pm).eos = true
  · simp [Bolna.storeGet_storeSet, h2, heos, cleanup]
  · cases pd with
    | none => simp [Bolna.storeGet_storeSet, h2, heos]
    | some d =>
      cases d with
      | nil => simp [Bolna.storeGet_storeSet, h2, heos]
      | cons b bs =>
        by_cases hps : st.push_stream = true <;>
          simp [Bolna.storeGet_storeSet, h2, heos, hps]

end Azure

/-- C9: in the audio-ingestion adapter, a request id is generated exactly
once, on the first audio packet after construction (the id-generator state
advances exactly once over the whole run), and every result subsequently
emitted to the output queue — interim, final, or session-stopped — carries
the same single metadata record, stamped with that request id, for the
adapter's whole life. -/
theorem c9_single_request_id (st : Azure.AzureState) (p : Azure.InPacket)
    (es : List Azure.AzEvent) (h0 : st.audio_submitted = false)
    (h1 : st.stopped = false) (h2 : p.meta < st.store.length) :
    (Azure.azRun st (Azure.AzEvent.packet p :: es)).1.current_request_id
      = some st.nextId ∧
    (Azure.azRun st (Azure.AzEvent.packet p :: es)).1.meta_info = some p.meta ∧
    (storeGet (Azure.azRun st (Azure.AzEvent.packet p :: es)).1.store
        p.meta).request_id = some st.nextId ∧
    (Azure.azRun st (Azure.AzEvent.packet p :: es)).1.nextId = st.nextId + 1 ∧
    ∀ q ∈ (Azure.azRun st (Azure.AzEvent.packet p :: es)).2,
      q.meta = some p.meta := by
  obtain ⟨f1, f2, f3, f4, f5⟩ := Azure.send_audio_iter_first st p h0 h1 h2
  have hstep : Azure.azStep st (Azure.AzEvent.packet p)
      = (Azure.send_audio_iter st p, []) := rfl
  obtain ⟨j1, j2, j3, j4, j5, j6⟩ :=
    Azure.azRun_submitted es (Azure.send_audio_iter st p) f1
  refine ⟨?_, ?_, ?_, ?_, ?_⟩
  · simp only [Azure.azRun, hstep]
    rw [j3, f3]
  · simp only [Azure.azRun, hstep]
    rw [j2, f2]
  · simp only [Azure.azRun, hstep]
    rw [j5, f5]
  · simp only [Azure.azRun, hstep]
    rw [j4, f4]
  · intro q hq
    simp only [Azure.azRun, hstep, List.nil_append] at hq
    rw [j6 q hq, f2]

/-- C9 witness. -/
theorem c9_single_request_id_witness :
    (Azure.azRun { store := [{}] }
        [Azure.AzEvent.packet ⟨0, some [7]⟩,
         Azure.AzEvent.recognized "x"]).1.current_request_id = some 0 ∧
    (Azure.azRun { store := [{}] }
        [Azure.AzEvent.packet ⟨0, some [7]⟩,
         Azure.AzEvent.recognized "x"]).1.meta_info = some 0 ∧
    (storeGet (Azure.azRun { store := [{}] }
        [Azure.AzEvent.packet ⟨0, some [7]⟩,
         Azure.AzEvent.recognized "x"]).1.store 0).request_id = some 0 ∧
    (Azure.azRun { store := [{}] }
        [Azure.AzEvent.packet ⟨0, some [7]⟩,
         Azure.AzEvent.recognized "x"]).1.nextId = 0 + 1 ∧
    ∀ q ∈ (Azure.azRun { store := [{}] }
        [Azure.AzEvent.packet ⟨0, some [7]⟩,
         Azure.AzEvent.recognized "x"]).2, q.meta = some 0 :=
  c9_single_request_id { store := [{}] } ⟨0, some [7]⟩
    [Azure.AzEvent.recognized "x"] rfl rfl (by decide)

/-- C10: a packet whose metadata carries `eos = true` triggers cleanup
(push stream and recognizer cleared) and exits the consuming loop before
the write at line 75 is reached, so its audio payload is never written to
the push stream; and once stopped, the loop consumes nothing further. -/
theorem c10_eos_payload_never_forwarded (s : Azure.AzureState)
    (p : Azure.InPacket) (h1 : s.stopped = false)
    (h2 : (storeGet s.store p.meta).eos = true) :
    (Azure.send_audio_iter s p).written = s.written ∧
    (Azure.send_audio_iter s p).push_stream = false ∧
    (Azure.send_audio_iter s p).recognizer = false ∧
    (Azure.send_audio_iter s p).stopped = true ∧
    ∀ (t : Azure.AzureState) (q : Azure.InPacket),
      t.stopped = true → Azure.send_audio_iter t q = t := by
  have hlast : ∀ (t : Azure.AzureState) (q : Azure.InPacket),
      t.stopped = true → Azure.send_audio_iter t q = t := by
    intro t q ht
    rw [Azure.send_audio_iter, ht]
    rfl
  rw [Azure.send_audio_iter]
  simp only [h1, Bool.false_eq_true, if_false]
  by_cases hsub : s.audio_submitted = true
  · simp only [hsub, if_pos]
    rw [Azure.check_and_process_end_of_stream]
    refine ⟨?_, ?_, ?_, ?_, hlast⟩ <;> simp [h2, Azure.cleanup]
  · simp only [hsub, if_neg, if_false]
    rw [Azure.generate_request_id, Azure.check_and_process_end_of_stream]
    have hpm : p.meta < s.store.length := by
      by_contra hge
      rw [storeGet_past_end s.store p.meta (Nat.le_of_not_lt hge)] at h2
      exact absurd h2 (by decide)
    have heq : (storeGet
        (storeSet s.store p.meta fun m => { m with request_id := some s.nextId })
        p.meta).eos = true := by
      rw [storeGet_storeSet]
      simp [hpm, h2]
    refine ⟨?_, ?_, ?_, ?_, hlast⟩ <;> simp [heq, Azure.cleanup]

/-- C10 witness. -/
theorem c10_eos_payload_never_forwarded_witness :
    (Azure.send_audio_iter { store := [{ eos := true }] } ⟨0, some [9]⟩).written
      = ({ store := [{ eos := true }] } : Azure.AzureState).written ∧
    (Azure.send_audio_iter { store := [{ eos := true }] } ⟨0, some [9]⟩).push_stream
      = false ∧
    (Azure.send_audio_iter { store := [{ eos := true }] } ⟨0, some [9]⟩).recognizer
      = false ∧
    (Azure.send_audio_iter { store := [{ eos := true }] } ⟨0, some [9]⟩).stopped
      = true ∧
    ∀ (t : Azure.AzureState) (q : Azure.InPacket),
      t.stopped = true → Azure.send_audio_iter t q = t :=
  c10_eos_payload_never_forwarded { store := [{ eos := true }] } ⟨0, some [9]⟩
    rfl rfl

end Bolna
